import Mathlib

set_option linter.unusedVariables false

/-
Shallow embedding of ROL::NewtonKrylovStep
(src/packages/rol/src/step/ROL_NewtonKrylovStep.hpp).

The vector space is an abstract type V equipped with the operations the
source calls on ROL::Vector (scale, axpy, norm, dual, clone); the secant
object is an abstract state S equipped with the operations the source
calls on ROL::Secant (use as a LinearOperator, updateStorage); the
objective and the Krylov solver are records of pure oracles mirroring the
virtual interfaces ROL::Objective and ROL::Krylov.  Calls the source
makes on collaborator objects that the claims quantify over (secant
construction, gp_ cloning, objective evaluations, secant storage updates)
are made visible as an event trace returned alongside the new state.
-/

namespace ROL

/-- Vector operations of the ROL::Vector interface used by
NewtonKrylovStep: in the source, v.scale(a) multiplies in place, x.axpy(a,y)
performs x = x + a*y in place, v.norm() returns a scalar, v.dual() maps to
the dual space, v.clone() produces an independent vector of the same space.
Scalars are embedded as rationals. -/
structure VectorOps (V : Type) where
  scale : ℚ → V → V
  axpy : ℚ → V → V → V
  norm : V → ℚ
  dual : V → V
  clone : V → V

/-- The ROL::Objective oracle interface consumed by NewtonKrylovStep:
value(x,tol), gradient(g,x,tol), hessVec(Hv,v,x,tol), precond(Pv,v,x,tol).
Output arguments become return values; the objective is modelled as a pure
oracle (its update hook has no observable effect beyond the event trace). -/
structure Objective (V : Type) where
  value : V → ℚ → ℚ
  gradient : V → ℚ → V
  hessVec : V → V → ℚ → V
  precond : V → V → ℚ → V

/-- The ROL::LinearOperator interface: apply(Hv,v,tol) and an optional
applyInverse(Hv,v,tol) (only preconditioners provide one). -/
structure LinearOperator (V : Type) where
  apply : V → ℚ → V
  applyInverse : Option (V → ℚ → V)

/-- The ROL::Krylov interface: run(s,A,b,M,iter,flag) takes the initial
direction s, the operator A, the right-hand side b and the preconditioner M,
and produces the direction together with the iteration count and the
termination flag (both C++ ints, embedded as integers). -/
structure Krylov (V : Type) where
  run : V → LinearOperator V → V → LinearOperator V → V × ℤ × ℤ

/-- The ROL::Secant interface over an abstract secant state S: the secant
acts as a LinearOperator, and updateStorage(x,grad,gp,s,snorm,iter) returns
the updated secant state. -/
structure SecantOps (V : Type) (S : Type) where
  asOp : S → LinearOperator V
  updateStorage : S → V → V → V → V → ℚ → ℕ → S

/-- Modelled from the spec: the EKrylov enumeration of ROL_Types.hpp is not
under src/; only the user-defined tag is semantically load-bearing here, the
remaining variants are carried by their configuration string. -/
inductive EKrylov where
  | KRYLOV_USERDEFINED
  | ofConfigString (s : String)
deriving DecidableEq

/-- Modelled from the spec: the ESecant enumeration of ROL_Types.hpp is not
under src/; only the user-defined tag is semantically load-bearing here. -/
inductive ESecant where
  | SECANT_USERDEFINED
  | ofConfigString (s : String)
deriving DecidableEq

/-- Modelled from the spec: StringToEKrylov of ROL_Types.hpp is not under
src/; it maps a configuration string to the corresponding enum variant. -/
def StringToEKrylov (s : String) : EKrylov := EKrylov.ofConfigString s

/-- Modelled from the spec: StringToESecant of ROL_Types.hpp is not under
src/; it maps a configuration string to the corresponding enum variant. -/
def StringToESecant (s : String) : ESecant := ESecant.ofConfigString s

/-- Modelled from the spec: EKrylovToString of ROL_Types.hpp is not under
src/. -/
def EKrylovToString : EKrylov → String
  | EKrylov.KRYLOV_USERDEFINED => "User Defined"
  | EKrylov.ofConfigString s => s

/-- Modelled from the spec: ESecantToString of ROL_Types.hpp is not under
src/. -/
def ESecantToString : ESecant → String
  | ESecant.SECANT_USERDEFINED => "User Defined"
  | ESecant.ofConfigString s => s

/-- The configuration options NewtonKrylovStep reads from its
Teuchos::ParameterList, already resolved against their defaults
(General.Secant."Use as Preconditioner" default false, General."Print
Verbosity" default 0, General.Krylov.Type default "Conjugate Gradients",
General.Secant.Type default "Limited-Memory BFGS"). -/
structure ParameterList where
  useSecantPrecond : Bool
  printVerbosity : ℤ
  krylovType : String
  secantType : String

/-- Modelled from the spec: ROL_EPSILON of ROL_Types.hpp is not under src/;
it is machine epsilon of the working numeric type, here IEEE double. -/
def ROL_EPSILON : ℚ := 1 / 2 ^ 52

/-- The tolerance used by NewtonKrylovStep::update, the square root of
ROL_EPSILON (exact for IEEE double: sqrt of 2 ^ (-52) is 2 ^ (-26)). -/
def updateTol : ℚ := 1 / 2 ^ 26

/-- StepState modelled from the spec (ROL_Step.hpp is not under src/):
per-step scratch holding the current gradient vector and the most recent
descent vector, reached through Step::getState(). -/
structure StepState (V : Type) where
  gradientVec : V
  descentVec : V

/-- AlgorithmState of the source: iteration counter, objective value,
gradient and step norms, evaluation counters, and the current iterate. -/
structure AlgorithmState (V : Type) where
  iter : ℕ
  value : ℚ
  gnorm : ℚ
  snorm : ℚ
  nfval : ℕ
  ngrad : ℕ
  iterateVec : V

/-- Events instrumenting the collaborator calls the claims quantify over:
secant construction by a constructor, gp_ cloning, the objective update
hook, objective value and gradient evaluations, and secant storage
updates. -/
inductive Event where
  | secantConstructed
  | gpCloned
  | objUpdated
  | valueEvaluated
  | gradientEvaluated
  | secantStorageUpdated
deriving DecidableEq

/-- The mutable fields of the NewtonKrylovStep class. -/
structure NewtonKrylovStep (V : Type) (S : Type) where
  secant_ : Option S
  krylov_ : Krylov V
  ekv_ : EKrylov
  esec_ : ESecant
  gp_ : Option V
  iterKrylov_ : ℤ
  flagKrylov_ : ℤ
  verbosity_ : ℤ
  useSecantPrecond_ : Bool

/-- The standard constructor NewtonKrylovStep(parlist): parses the options,
always builds the Krylov object from the factory, and builds the secant
object from the factory only when "Use as Preconditioner" is true.  The
factories (KrylovFactory, SecantFactory, not under src/) are passed in as
oracles; the event list records whether the secant factory was invoked. -/
def mkNewtonKrylovStep {V S : Type} (parlist : ParameterList)
    (kf : ParameterList → Krylov V) (sf : ParameterList → S) :
    NewtonKrylovStep V S × List Event :=
  ({ secant_ := if parlist.useSecantPrecond then some (sf parlist) else none
     krylov_ := kf parlist
     ekv_ := StringToEKrylov parlist.krylovType
     esec_ := StringToESecant parlist.secantType
     gp_ := none
     iterKrylov_ := 0
     flagKrylov_ := 0
     verbosity_ := parlist.printVerbosity
     useSecantPrecond_ := parlist.useSecantPrecond },
   if parlist.useSecantPrecond then [Event.secantConstructed] else [])

/-- The user-defined constructor NewtonKrylovStep(parlist, krylov, secant):
initializes secant_ and krylov_ from the arguments (null embedded as none)
with the user-defined enum tags, then replaces secant_ by the factory
product only when "Use as Preconditioner" is true and the supplied secant
is null, and replaces krylov_ by the factory product only when the supplied
krylov is null. -/
def mkNewtonKrylovStepUser {V S : Type} (parlist : ParameterList)
    (krylov : Option (Krylov V)) (secant : Option S)
    (kf : ParameterList → Krylov V) (sf : ParameterList → S) :
    NewtonKrylovStep V S × List Event :=
  let secRes : ESecant × Option S × List Event :=
    match secant, parlist.useSecantPrecond with
    | none, true =>
        (StringToESecant parlist.secantType, some (sf parlist),
         [Event.secantConstructed])
    | s0, _ => (ESecant.SECANT_USERDEFINED, s0, [])
  let krylovRes : EKrylov × Krylov V :=
    match krylov with
    | none => (StringToEKrylov parlist.krylovType, kf parlist)
    | some k => (EKrylov.KRYLOV_USERDEFINED, k)
  ({ secant_ := secRes.2.1
     krylov_ := krylovRes.2
     ekv_ := krylovRes.1
     esec_ := secRes.1
     gp_ := none
     iterKrylov_ := 0
     flagKrylov_ := 0
     verbosity_ := parlist.printVerbosity
     useSecantPrecond_ := parlist.useSecantPrecond },
   secRes.2.2)

/-- NewtonKrylovStep::initialize: delegates to Step::initialize (modelled
from the spec, ROL_Step.hpp not under src/: no work relevant to the claims)
and, when secant preconditioning is enabled, clones the workspace vector
gp_ from the gradient-space vector g. -/
def initStep {V S : Type} (ops : VectorOps V) (step : NewtonKrylovStep V S)
    (x s g : V) (obj : Objective V) (algo : AlgorithmState V) :
    NewtonKrylovStep V S × List Event :=
  if step.useSecantPrecond_ then
    ({ step with gp_ := some (ops.clone g) }, [Event.gpCloned])
  else
    (step, [])

/-- The nested HessianNK wrapper: apply delegates to the objective
Hessian-vector product at the captured point; no applyInverse. -/
def HessianNK {V : Type} (obj : Objective V) (x : V) : LinearOperator V :=
  { apply := fun v tol => obj.hessVec v x tol
    applyInverse := none }

/-- The nested PrecondNK wrapper: apply sets Hv to the dual of v;
applyInverse delegates to the objective preconditioner at the captured
point. -/
def PrecondNK {V : Type} (ops : VectorOps V) (obj : Objective V) (x : V) :
    LinearOperator V :=
  { apply := fun v tol => ops.dual v
    applyInverse := some fun v tol => obj.precond v x tol }

/-- Stand-in operator for dereferencing a null Teuchos::RCP (undefined
behavior in the C++ source); unreachable when the constructors establish
that secant_ is non-null whenever useSecantPrecond_ holds. -/
def nullOp {V : Type} : LinearOperator V :=
  { apply := fun v tol => v
    applyInverse := none }

/-- The preconditioner selected by NewtonKrylovStep::compute: the secant
object itself when secant preconditioning is enabled, otherwise a fresh
PrecondNK bound to algo_state.iterateVec. -/
def precondOf {V S : Type} (ops : VectorOps V) (sops : SecantOps V S)
    (step : NewtonKrylovStep V S) (obj : Objective V)
    (algo : AlgorithmState V) : LinearOperator V :=
  if step.useSecantPrecond_ then
    match step.secant_ with
    | some sec => sops.asOp sec
    | none => nullOp
  else
    PrecondNK ops obj algo.iterateVec

/-- The Krylov invocation inside NewtonKrylovStep::compute:
krylov_.run(s, HessianNK bound to algo_state.iterateVec, the StepState
gradient as right-hand side, the selected preconditioner), returning the
direction, the iteration count and the termination flag. -/
def computeKrylovResult {V S : Type} (ops : VectorOps V)
    (sops : SecantOps V S) (step : NewtonKrylovStep V S)
    (stepSt : StepState V) (s : V) (obj : Objective V)
    (algo : AlgorithmState V) : V × ℤ × ℤ :=
  step.krylov_.run s (HessianNK obj algo.iterateVec) stepSt.gradientVec
    (precondOf ops sops step obj algo)

/-- NewtonKrylovStep::compute(s, x, obj, bnd, algo_state): runs the Krylov
solver, falls back to the dual of the gradient when the termination flag is
2 and the iteration count is at most 1, then scales the direction by -1.
Returns the direction written into s together with the step object holding
the retained iterKrylov_ and flagKrylov_ counters.  The BoundConstraint
argument is unused by the source and omitted. -/
def compute {V S : Type} (ops : VectorOps V) (sops : SecantOps V S)
    (step : NewtonKrylovStep V S) (stepSt : StepState V) (s x : V)
    (obj : Objective V) (algo : AlgorithmState V) :
    V × NewtonKrylovStep V S :=
  let r := computeKrylovResult ops sops step stepSt s obj algo
  (ops.scale (-1)
     (if r.2.2 = 2 ∧ r.2.1 ≤ 1 then ops.dual stepSt.gradientVec else r.1),
   { step with iterKrylov_ := r.2.1, flagKrylov_ := r.2.2 })

/-- NewtonKrylovStep::update(x, s, obj, bnd, algo_state): increments iter,
applies x = x + s, records the descent vector and snorm, snapshots the old
gradient into gp_ when secant preconditioning is enabled, notifies the
objective, recomputes value and gradient at the new x with tolerance
sqrt(ROL_EPSILON), increments ngrad, updates the secant storage when
enabled, then synchronizes iterateVec and gnorm.  Returns ((new x, new
step, new step state, new algorithm state), events). -/
def update {V S : Type} (ops : VectorOps V) (sops : SecantOps V S)
    (step : NewtonKrylovStep V S) (stepSt : StepState V) (x s : V)
    (obj : Objective V) (algo : AlgorithmState V) :
    (V × NewtonKrylovStep V S × StepState V × AlgorithmState V) ×
      List Event :=
  let tol := updateTol
  let iter1 := algo.iter + 1
  let x1 := ops.axpy 1 s x
  let snorm1 := ops.norm s
  let gp1 : Option V :=
    if step.useSecantPrecond_ then
      match step.gp_ with
      | some _ => some stepSt.gradientVec
      | none => none
    else step.gp_
  let value1 := obj.value x1 tol
  let grad1 := obj.gradient x1 tol
  let secRes : Option S × List Event :=
    if step.useSecantPrecond_ then
      match step.secant_, gp1 with
      | some sec, some gold =>
          (some (sops.updateStorage sec x1 grad1 gold s snorm1 (iter1 + 1)),
           [Event.secantStorageUpdated])
      | sec0, _ => (sec0, [])
    else (step.secant_, [])
  ((x1,
    { step with gp_ := gp1, secant_ := secRes.1 },
    { stepSt with gradientVec := grad1, descentVec := s },
    { algo with
        iter := iter1
        snorm := snorm1
        value := value1
        ngrad := algo.ngrad + 1
        iterateVec := x1
        gnorm := ops.norm grad1 }),
   [Event.objUpdated, Event.valueEvaluated, Event.gradientEvaluated] ++
     secRes.2)

/-- A token of the status text produced by print/printHeader/printName:
the substantive fields carry their values, name and header tokens stand
for the cosmetic text (exact column widths and number formatting are not
part of the functional contract). -/
inductive PrintEntry where
  | nameText (s : String)
  | headerText
  | iterF (n : ℕ)
  | valueF (q : ℚ)
  | gnormF (q : ℚ)
  | snormF (q : ℚ)
  | nfvalF (n : ℕ)
  | ngradF (n : ℕ)
  | iterCGF (n : ℤ)
  | flagCGF (n : ℤ)
deriving DecidableEq

/-- NewtonKrylovStep::printName: the descent method name, the Krylov method
name, and the secant preconditioning note when enabled. -/
def printName {V S : Type} (step : NewtonKrylovStep V S) : List PrintEntry :=
  PrintEntry.nameText "Newton-Krylov" ::
    PrintEntry.nameText (EKrylovToString step.ekv_) ::
    (if step.useSecantPrecond_ then
       [PrintEntry.nameText (ESecantToString step.esec_)]
     else [])

/-- NewtonKrylovStep::printHeader: a verbose definition block when
verbosity is positive, then the column-title row; both purely cosmetic. -/
def printHeader {V S : Type} (step : NewtonKrylovStep V S) :
    List PrintEntry :=
  (if 0 < step.verbosity_ then [PrintEntry.headerText] else []) ++
    [PrintEntry.headerText]

/-- NewtonKrylovStep::print(algo_state, print_header): at iteration 0 the
name block followed by iter, value and gnorm only; otherwise all eight
substantive fields iter, value, gnorm, snorm, nfval, ngrad, iterKrylov_ and
flagKrylov_. -/
def print {V S : Type} (step : NewtonKrylovStep V S)
    (algo : AlgorithmState V) (ph : Bool) : List PrintEntry :=
  (if algo.iter = 0 then printName step else []) ++
    (if ph then printHeader step else []) ++
    (if algo.iter = 0 then
       [PrintEntry.iterF algo.iter, PrintEntry.valueF algo.value,
        PrintEntry.gnormF algo.gnorm]
     else
       [PrintEntry.iterF algo.iter, PrintEntry.valueF algo.value,
        PrintEntry.gnormF algo.gnorm, PrintEntry.snormF algo.snorm,
        PrintEntry.nfvalF algo.nfval, PrintEntry.ngradF algo.ngrad,
        PrintEntry.iterCGF step.iterKrylov_,
        PrintEntry.flagCGF step.flagKrylov_])

/-- Whether a status-text token list mentions each of the eight substantive
fields: iteration count, objective value, gradient norm, step norm,
function-evaluation count, gradient-evaluation count, Krylov iteration
count, Krylov termination flag. -/
def containsAllEight (l : List PrintEntry) : Bool :=
  (l.any fun e => match e with | PrintEntry.iterF _ => true | _ => false) &&
  (l.any fun e => match e with | PrintEntry.valueF _ => true | _ => false) &&
  (l.any fun e => match e with | PrintEntry.gnormF _ => true | _ => false) &&
  (l.any fun e => match e with | PrintEntry.snormF _ => true | _ => false) &&
  (l.any fun e => match e with | PrintEntry.nfvalF _ => true | _ => false) &&
  (l.any fun e => match e with | PrintEntry.ngradF _ => true | _ => false) &&
  (l.any fun e => match e with | PrintEntry.iterCGF _ => true | _ => false) &&
  (l.any fun e => match e with | PrintEntry.flagCGF _ => true | _ => false)

/-- The driver-visible mutable state of an optimization run: the step
object, its StepState scratch, the optimization vector x owned by the
driver, and the shared AlgorithmState record. -/
structure Machine (V : Type) (S : Type) where
  step : NewtonKrylovStep V S
  stepSt : StepState V
  x : V
  algo : AlgorithmState V

/-- One driver call on the step object together with the collaborator
arguments the driver passes to it. -/
inductive StepOp (V : Type) where
  | initOp (s g : V) (obj : Objective V)
  | computeOp (s : V) (obj : Objective V)
  | updateOp (s : V) (obj : Objective V)

/-- Execute one driver call on the machine, returning the new machine and
the events the call emitted. -/
def runOp {V S : Type} (ops : VectorOps V) (sops : SecantOps V S)
    (m : Machine V S) : StepOp V → Machine V S × List Event
  | StepOp.initOp s g obj =>
      let r := initStep ops m.step m.x s g obj m.algo
      ({ m with step := r.1 }, r.2)
  | StepOp.computeOp s obj =>
      let r := compute ops sops m.step m.stepSt s m.x obj m.algo
      ({ m with step := r.2 }, [])
  | StepOp.updateOp s obj =>
      let r := update ops sops m.step m.stepSt m.x s obj m.algo
      ({ step := r.1.2.1, stepSt := r.1.2.2.1, x := r.1.1,
         algo := r.1.2.2.2 }, r.2)

/-- Execute a sequence of driver calls, concatenating the emitted
events. -/
def runOps {V S : Type} (ops : VectorOps V) (sops : SecantOps V S) :
    Machine V S → List (StepOp V) → Machine V S × List Event
  | m, [] => (m, [])
  | m, op :: rest =>
      let r1 := runOp ops sops m op
      let r2 := runOps ops sops r1.1 rest
      (r2.1, r1.2 ++ r2.2)

/-- Lineage of a stored secant object: relates an initial secant_ field
value to every secant_ field value obtained from it by updateStorage calls
alone.  In C++ terms the two sides are the same object instance, mutated
in place by its own update operation and never replaced by a factory
product. -/
inductive SecantLineage {V S : Type} (sops : SecantOps V S)
    (o : Option S) : Option S → Prop where
  | refl : SecantLineage sops o o
  | step (s1 : S) (x g gp st : V) (n : ℚ) (i : ℕ) :
      SecantLineage sops o (some s1) →
      SecantLineage sops o (some (sops.updateStorage s1 x g gp st n i))

/-- Execute a sequence of update calls, each given the step s and the
objective the driver passes for that call, threading x through. -/
def updateRun {V S : Type} (ops : VectorOps V) (sops : SecantOps V S) :
    Machine V S → List (V × Objective V) → Machine V S
  | m, [] => m
  | m, c :: rest =>
      let r := update ops sops m.step m.stepSt m.x c.1 c.2 m.algo
      updateRun ops sops
        { step := r.1.2.1, stepSt := r.1.2.2.1, x := r.1.1,
          algo := r.1.2.2.2 } rest

/-- Concrete one-dimensional rational vector space used to witness the
generic theorems: dual is the identity Riesz map, norm is the absolute
value. -/
def qOps : VectorOps ℚ :=
  { scale := fun a v => a * v
    axpy := fun a y x => x + a * y
    norm := fun v => |v|
    dual := fun v => v
    clone := fun v => v }

/-- Concrete quadratic objective f(x) = x * x on the one-dimensional
space, used to witness the generic theorems. -/
def qObj : Objective ℚ :=
  { value := fun x tol => x * x
    gradient := fun x tol => 2 * x
    hessVec := fun v x tol => 2 * v
    precond := fun v x tol => v }

/-- Concrete trivial secant over the unit state, used to witness the
generic theorems. -/
def unitSecantOps : SecantOps ℚ Unit :=
  { asOp := fun u => { apply := fun v tol => v
                       applyInverse := some fun v tol => v }
    updateStorage := fun u x g gp s n i => () }

/-- Concrete Krylov solver returning a fixed direction, iteration count
and flag, used to witness the generic theorems. -/
def qKrylov (d : ℚ) (it fl : ℤ) : Krylov ℚ :=
  { run := fun s a b m => (d, it, fl) }

/-- Concrete configuration with secant preconditioning disabled and all
remaining options at their defaults. -/
def plistFalse : ParameterList :=
  { useSecantPrecond := false
    printVerbosity := 0
    krylovType := "Conjugate Gradients"
    secantType := "Limited-Memory BFGS" }

/-- Concrete StepState with gradient 3. -/
def stepSt0 : StepState ℚ :=
  { gradientVec := 3, descentVec := 0 }

/-- Concrete AlgorithmState at iteration 0 with iterate 2. -/
def algo0 : AlgorithmState ℚ :=
  { iter := 0, value := 4, gnorm := 3, snorm := 0, nfval := 0, ngrad := 0,
    iterateVec := 2 }

/-- Concrete AlgorithmState at iteration 1. -/
def algo1 : AlgorithmState ℚ :=
  { iter := 1, value := 4, gnorm := 3, snorm := 1, nfval := 2, ngrad := 1,
    iterateVec := 2 }

/-- Concrete step whose Krylov solver reports negative curvature on the
first inner iteration. -/
def stepNC1 : NewtonKrylovStep ℚ Unit :=
  (mkNewtonKrylovStep plistFalse (fun p => qKrylov 5 1 2) (fun p => ())).1

/-- Concrete step whose Krylov solver reports negative curvature after
three inner iterations. -/
def stepNC3 : NewtonKrylovStep ℚ Unit :=
  (mkNewtonKrylovStep plistFalse (fun p => qKrylov 7 3 2) (fun p => ())).1

/-- Concrete step whose Krylov solver converges normally. -/
def stepOK : NewtonKrylovStep ℚ Unit :=
  (mkNewtonKrylovStep plistFalse (fun p => qKrylov 7 4 0) (fun p => ())).1

/-- Concrete machine starting from freshly constructed state at iteration
zero. -/
def machine0 : Machine ℚ Unit :=
  { step := stepOK, stepSt := stepSt0, x := 2, algo := algo0 }

/-- C1: for every call to compute, if the Krylov solver returns termination
flag 2 (negative curvature) and an iteration count at most 1, the output
step equals the negated dual-mapped current gradient, regardless of the
direction the Krylov solver wrote. -/
theorem compute_negCurvature_fallback {V S : Type} (ops : VectorOps V)
    (sops : SecantOps V S) (step : NewtonKrylovStep V S)
    (stepSt : StepState V) (s x : V) (obj : Objective V)
    (algo : AlgorithmState V)
    (hflag : (computeKrylovResult ops sops step stepSt s obj algo).2.2 = 2)
    (hiter : (computeKrylovResult ops sops step stepSt s obj algo).2.1 ≤ 1) :
    (compute ops sops step stepSt s x obj algo).1 =
      ops.scale (-1) (ops.dual stepSt.gradientVec) := by
  simp [compute, hflag, hiter]

theorem compute_negCurvature_fallback_witness :
    (computeKrylovResult qOps unitSecantOps stepNC1 stepSt0 0 qObj
        algo0).2.2 = 2 ∧
    (computeKrylovResult qOps unitSecantOps stepNC1 stepSt0 0 qObj
        algo0).2.1 ≤ 1 ∧
    (compute qOps unitSecantOps stepNC1 stepSt0 0 0 qObj algo0).1 =
      qOps.scale (-1) (qOps.dual stepSt0.gradientVec) :=
  ⟨by decide, by decide,
   compute_negCurvature_fallback qOps unitSecantOps stepNC1 stepSt0 0 0
     qObj algo0 (by decide) (by decide)⟩

/-- C2: for every call to compute, if the Krylov solver returns termination
flag 2 but an iteration count strictly greater than 1, the fallback is not
taken and the output step equals the negation of the Krylov direction. -/
theorem compute_negCurvature_progress {V S : Type} (ops : VectorOps V)
    (sops : SecantOps V S) (step : NewtonKrylovStep V S)
    (stepSt : StepState V) (s x : V) (obj : Objective V)
    (algo : AlgorithmState V)
    (hflag : (computeKrylovResult ops sops step stepSt s obj algo).2.2 = 2)
    (hiter : 1 < (computeKrylovResult ops sops step stepSt s obj algo).2.1) :
    (compute ops sops step stepSt s x obj algo).1 =
      ops.scale (-1)
        (computeKrylovResult ops sops step stepSt s obj algo).1 := by
  have hle : ¬ (computeKrylovResult ops sops step stepSt s obj
      algo).2.1 ≤ 1 := not_le.mpr hiter
  simp [compute, hle]

theorem compute_negCurvature_progress_witness :
    (computeKrylovResult qOps unitSecantOps stepNC3 stepSt0 0 qObj
        algo0).2.2 = 2 ∧
    1 < (computeKrylovResult qOps unitSecantOps stepNC3 stepSt0 0 qObj
        algo0).2.1 ∧
    (compute qOps unitSecantOps stepNC3 stepSt0 0 0 qObj algo0).1 =
      qOps.scale (-1)
        (computeKrylovResult qOps unitSecantOps stepNC3 stepSt0 0 qObj
           algo0).1 :=
  ⟨by decide, by decide,
   compute_negCurvature_progress qOps unitSecantOps stepNC3 stepSt0 0 0
     qObj algo0 (by decide) (by decide)⟩

/-- C3: for every call to compute in which the fallback condition is not
triggered, the returned step equals the scaling by -1 of the raw direction
the Krylov solver produced. -/
theorem compute_returns_negated_direction {V S : Type} (ops : VectorOps V)
    (sops : SecantOps V S) (step : NewtonKrylovStep V S)
    (stepSt : StepState V) (s x : V) (obj : Objective V)
    (algo : AlgorithmState V)
    (h : ¬ ((computeKrylovResult ops sops step stepSt s obj algo).2.2 = 2 ∧
        (computeKrylovResult ops sops step stepSt s obj algo).2.1 ≤ 1)) :
    (compute ops sops step stepSt s x obj algo).1 =
      ops.scale (-1)
        (computeKrylovResult ops sops step stepSt s obj algo).1 := by
  simp only [compute]
  rw [if_neg h]

theorem compute_returns_negated_direction_witness :
    ¬ ((computeKrylovResult qOps unitSecantOps stepOK stepSt0 0 qObj
          algo0).2.2 = 2 ∧
       (computeKrylovResult qOps unitSecantOps stepOK stepSt0 0 qObj
          algo0).2.1 ≤ 1) ∧
    (compute qOps unitSecantOps stepOK stepSt0 0 0 qObj algo0).1 =
      qOps.scale (-1)
        (computeKrylovResult qOps unitSecantOps stepOK stepSt0 0 qObj
           algo0).1 :=
  ⟨by decide,
   compute_returns_negated_direction qOps unitSecantOps stepOK stepSt0 0 0
     qObj algo0 (by decide)⟩

/-- C4: after every call to update, iterateVec equals the updated point
x + s (embedded as axpy 1 s x), value is the objective value at that
updated point, and gnorm is the norm of the gradient evaluated at that
same updated point. -/
theorem update_state_consistency {V S : Type} (ops : VectorOps V)
    (sops : SecantOps V S) (step : NewtonKrylovStep V S)
    (stepSt : StepState V) (x s : V) (obj : Objective V)
    (algo : AlgorithmState V) :
    ((update ops sops step stepSt x s obj algo).1.2.2.2).iterateVec =
        ops.axpy 1 s x ∧
    ((update ops sops step stepSt x s obj algo).1.2.2.2).value =
        obj.value (ops.axpy 1 s x) updateTol ∧
    ((update ops sops step stepSt x s obj algo).1.2.2.2).gnorm =
        ops.norm (obj.gradient (ops.axpy 1 s x) updateTol) :=
  ⟨rfl, rfl, rfl⟩

/-- C9: the direction produced by compute does not depend on the x
argument, because the Hessian and default-preconditioner wrappers are
bound to algo_state.iterateVec, not to the x parameter. -/
theorem compute_independent_of_x {V S : Type} (ops : VectorOps V)
    (sops : SecantOps V S) (step : NewtonKrylovStep V S)
    (stepSt : StepState V) (s : V) (obj : Objective V)
    (algo : AlgorithmState V) (x1 x2 : V) :
    compute ops sops step stepSt s x1 obj algo =
      compute ops sops step stepSt s x2 obj algo := rfl

/-- C10: every call to update evaluates the objective value but leaves the
function-evaluation counter nfval unchanged; only the gradient-evaluation
counter ngrad is incremented. -/
theorem update_nfval_frame {V S : Type} (ops : VectorOps V)
    (sops : SecantOps V S) (step : NewtonKrylovStep V S)
    (stepSt : StepState V) (x s : V) (obj : Objective V)
    (algo : AlgorithmState V) :
    ((update ops sops step stepSt x s obj algo).1.2.2.2).nfval =
        algo.nfval ∧
    ((update ops sops step stepSt x s obj algo).1.2.2.2).ngrad =
        algo.ngrad + 1 ∧
    Event.valueEvaluated ∈ (update ops sops step stepSt x s obj algo).2 := by
  refine ⟨rfl, rfl, ?_⟩
  simp [update]

/-- Helper: each update call adds exactly one to iter and to ngrad, so a
run of update calls adds the length of the run to each counter. -/
theorem updateRun_iter_ngrad {V S : Type} (ops : VectorOps V)
    (sops : SecantOps V S) (l : List (V × Objective V)) :
    ∀ m : Machine V S,
      (updateRun ops sops m l).algo.iter = m.algo.iter + l.length ∧
      (updateRun ops sops m l).algo.ngrad = m.algo.ngrad + l.length := by
  induction l with
  | nil => intro m; exact ⟨rfl, rfl⟩
  | cons c tl ih =>
      intro m
      simp only [updateRun]
      refine ⟨?_, ?_⟩
      · rw [(ih _).1]
        show m.algo.iter + 1 + tl.length = m.algo.iter + (c :: tl).length
        simp [List.length_cons]; omega
      · rw [(ih _).2]
        show m.algo.ngrad + 1 + tl.length = m.algo.ngrad + (c :: tl).length
        simp [List.length_cons]; omega

/-- C5: assuming iter and ngrad both start at 0, after a run of n update
calls the state satisfies iter = n and ngrad = n. -/
theorem update_counters_after_n_calls {V S : Type} (ops : VectorOps V)
    (sops : SecantOps V S) (calls : List (V × Objective V))
    (m : Machine V S) (h1 : m.algo.iter = 0) (h2 : m.algo.ngrad = 0) :
    (updateRun ops sops m calls).algo.iter = calls.length ∧
    (updateRun ops sops m calls).algo.ngrad = calls.length := by
  obtain ⟨e1, e2⟩ := updateRun_iter_ngrad ops sops calls m
  rw [e1, e2, h1, h2]
  simp

theorem update_counters_after_n_calls_witness :
    (updateRun qOps unitSecantOps machine0
        [(1, qObj), (2, qObj)]).algo.iter = 2 ∧
    (updateRun qOps unitSecantOps machine0
        [(1, qObj), (2, qObj)]).algo.ngrad = 2 :=
  update_counters_after_n_calls qOps unitSecantOps [(1, qObj), (2, qObj)]
    machine0 rfl rfl

/-- Helper: one driver call on a machine whose step has secant
preconditioning disabled, no secant object and no gp_ workspace preserves
all three facts and emits no secant-related event. -/
theorem runOp_secant_gated {V S : Type} (ops : VectorOps V)
    (sops : SecantOps V S) (m : Machine V S) (op : StepOp V)
    (h1 : m.step.useSecantPrecond_ = false) (h2 : m.step.secant_ = none)
    (h3 : m.step.gp_ = none) :
    (runOp ops sops m op).1.step.useSecantPrecond_ = false ∧
    (runOp ops sops m op).1.step.secant_ = none ∧
    (runOp ops sops m op).1.step.gp_ = none ∧
    ∀ e ∈ (runOp ops sops m op).2,
      e ≠ Event.secantConstructed ∧ e ≠ Event.gpCloned ∧
      e ≠ Event.secantStorageUpdated := by
  cases op with
  | initOp s g obj => simp [runOp, initStep, h1, h2, h3]
  | computeOp s obj => simp [runOp, compute, h1, h2, h3]
  | updateOp s obj => simp [runOp, update, h1, h2, h3]

/-- Helper: a run of driver calls from such a machine preserves all three
facts and emits no secant-related event. -/
theorem runOps_secant_gated {V S : Type} (ops : VectorOps V)
    (sops : SecantOps V S) (l : List (StepOp V)) :
    ∀ m : Machine V S, m.step.useSecantPrecond_ = false →
      m.step.secant_ = none → m.step.gp_ = none →
      (runOps ops sops m l).1.step.useSecantPrecond_ = false ∧
      (runOps ops sops m l).1.step.secant_ = none ∧
      (runOps ops sops m l).1.step.gp_ = none ∧
      ∀ e ∈ (runOps ops sops m l).2,
        e ≠ Event.secantConstructed ∧ e ≠ Event.gpCloned ∧
        e ≠ Event.secantStorageUpdated := by
  induction l with
  | nil =>
      intro m h1 h2 h3
      exact ⟨h1, h2, h3, by simp [runOps]⟩
  | cons op tl ih =>
      intro m h1 h2 h3
      obtain ⟨g1, g2, g3, g4⟩ := runOp_secant_gated ops sops m op h1 h2 h3
      obtain ⟨t1, t2, t3, t4⟩ := ih (runOp ops sops m op).1 g1 g2 g3
      refine ⟨t1, t2, t3, ?_⟩
      intro e he
      have he2 : e ∈ (runOp ops sops m op).2 ++
          (runOps ops sops (runOp ops sops m op).1 tl).2 := he
      rcases List.mem_append.mp he2 with hmem | hmem
      · exact g4 e hmem
      · exact t4 e hmem

/-- C6: with "Use as Preconditioner" false, the standard constructor never
builds a secant object (its result does not depend on the secant factory
and emits no construction event), and every sequence of driver calls
leaves secant_ and gp_ empty while never cloning gp_ and never invoking
the secant storage update. -/
theorem secant_disabled_never_used {V S : Type} (ops : VectorOps V)
    (sops : SecantOps V S) (parlist : ParameterList)
    (kf : ParameterList → Krylov V) (sf : ParameterList → S)
    (stepSt : StepState V) (x : V) (algo : AlgorithmState V)
    (l : List (StepOp V)) (h : parlist.useSecantPrecond = false) :
    (mkNewtonKrylovStep (V := V) (S := S) parlist kf sf).1.secant_ =
        none ∧
    (mkNewtonKrylovStep (V := V) (S := S) parlist kf sf).2 = [] ∧
    (∀ sf', mkNewtonKrylovStep (V := V) (S := S) parlist kf sf' =
        mkNewtonKrylovStep parlist kf sf) ∧
    (runOps ops sops
        { step := (mkNewtonKrylovStep parlist kf sf).1, stepSt := stepSt,
          x := x, algo := algo } l).1.step.secant_ = none ∧
    (runOps ops sops
        { step := (mkNewtonKrylovStep parlist kf sf).1, stepSt := stepSt,
          x := x, algo := algo } l).1.step.gp_ = none ∧
    ∀ e ∈ (runOps ops sops
        { step := (mkNewtonKrylovStep parlist kf sf).1, stepSt := stepSt,
          x := x, algo := algo } l).2,
      e ≠ Event.secantConstructed ∧ e ≠ Event.gpCloned ∧
      e ≠ Event.secantStorageUpdated := by
  have h1 : (mkNewtonKrylovStep (V := V) (S := S) parlist kf
      sf).1.useSecantPrecond_ = false := h
  have h2 : (mkNewtonKrylovStep (V := V) (S := S) parlist kf
      sf).1.secant_ = none := by
    simp [mkNewtonKrylovStep, h]
  have h3 : (mkNewtonKrylovStep (V := V) (S := S) parlist kf sf).1.gp_ =
      none := rfl
  have h4 : (mkNewtonKrylovStep (V := V) (S := S) parlist kf sf).2 =
      [] := by
    simp [mkNewtonKrylovStep, h]
  obtain ⟨g1, g2, g3, g4⟩ := runOps_secant_gated ops sops l
    { step := (mkNewtonKrylovStep parlist kf sf).1, stepSt := stepSt,
      x := x, algo := algo } h1 h2 h3
  exact ⟨h2, h4, fun sf' => by simp [mkNewtonKrylovStep, h], g2, g3, g4⟩

theorem secant_disabled_never_used_witness :
    (runOps qOps unitSecantOps
        { step := (mkNewtonKrylovStep plistFalse (fun p => qKrylov 7 4 0)
            (fun p => ())).1, stepSt := stepSt0, x := 2, algo := algo0 }
        [StepOp.initOp 0 3 qObj, StepOp.computeOp 0 qObj,
         StepOp.updateOp 1 qObj]).1.step.secant_ = none :=
  (secant_disabled_never_used qOps unitSecantOps plistFalse
    (fun p => qKrylov 7 4 0) (fun p => ()) stepSt0 2 algo0
    [StepOp.initOp 0 3 qObj, StepOp.computeOp 0 qObj,
     StepOp.updateOp 1 qObj] rfl).2.2.2.1

/-- Helper: secant lineage is transitive. -/
theorem SecantLineage.trans {V S : Type} {sops : SecantOps V S}
    {a b c : Option S} (h1 : SecantLineage sops a b)
    (h2 : SecantLineage sops b c) : SecantLineage sops a c := by
  induction h2 with
  | refl => exact h1
  | step s1 x g gp st n i h ih =>
      exact SecantLineage.step s1 x g gp st n i ih

/-- Helper: no driver call modifies the krylov_ field or the
useSecantPrecond_ flag of the step object. -/
theorem runOp_config_preserved {V S : Type} (ops : VectorOps V)
    (sops : SecantOps V S) (m : Machine V S) (op : StepOp V) :
    (runOp ops sops m op).1.step.krylov_ = m.step.krylov_ ∧
    (runOp ops sops m op).1.step.useSecantPrecond_ =
      m.step.useSecantPrecond_ := by
  cases op with
  | initOp s g obj =>
      simp only [runOp, initStep]
      split <;> exact ⟨rfl, rfl⟩
  | computeOp s obj => exact ⟨rfl, rfl⟩
  | updateOp s obj => exact ⟨rfl, rfl⟩

/-- Helper: no sequence of driver calls modifies the krylov_ field or the
useSecantPrecond_ flag of the step object. -/
theorem runOps_config_preserved {V S : Type} (ops : VectorOps V)
    (sops : SecantOps V S) (l : List (StepOp V)) :
    ∀ m : Machine V S,
      (runOps ops sops m l).1.step.krylov_ = m.step.krylov_ ∧
      (runOps ops sops m l).1.step.useSecantPrecond_ =
        m.step.useSecantPrecond_ := by
  induction l with
  | nil => intro m; exact ⟨rfl, rfl⟩
  | cons op tl ih =>
      intro m
      obtain ⟨a1, a2⟩ := runOp_config_preserved ops sops m op
      obtain ⟨b1, b2⟩ := ih (runOp ops sops m op).1
      exact ⟨b1.trans a1, b2.trans a2⟩

/-- Helper: one driver call either leaves the stored secant unchanged or
replaces it by its own updateStorage product, so the new stored secant is
in the lineage of the old one. -/
theorem runOp_secant_lineage {V S : Type} (ops : VectorOps V)
    (sops : SecantOps V S) (m : Machine V S) (op : StepOp V) :
    SecantLineage sops m.step.secant_
      ((runOp ops sops m op).1.step.secant_) := by
  cases op with
  | initOp s g obj =>
      simp only [runOp, initStep]
      split <;> exact SecantLineage.refl
  | computeOp s obj => exact SecantLineage.refl
  | updateOp s obj =>
      cases hsp : m.step.useSecantPrecond_ with
      | false =>
          simp only [runOp, update, hsp]
          exact SecantLineage.refl
      | true =>
          cases hsec : m.step.secant_ with
          | none =>
              simp only [runOp, update, hsp, hsec]
              exact SecantLineage.refl
          | some sec0 =>
              cases hgp : m.step.gp_ with
              | none =>
                  simp only [runOp, update, hsp, hsec, hgp]
                  exact SecantLineage.refl
              | some gold0 =>
                  simp only [runOp, update, hsp, hsec, hgp]
                  exact SecantLineage.step sec0 _ _ _ _ _ _
                    SecantLineage.refl

/-- Helper: over every sequence of driver calls, the stored secant stays
in the lineage of the initially stored one. -/
theorem runOps_secant_lineage {V S : Type} (ops : VectorOps V)
    (sops : SecantOps V S) (l : List (StepOp V)) :
    ∀ m : Machine V S,
      SecantLineage sops m.step.secant_
        ((runOps ops sops m l).1.step.secant_) := by
  induction l with
  | nil => intro m; exact SecantLineage.refl
  | cons op tl ih =>
      intro m
      exact SecantLineage.trans (runOp_secant_lineage ops sops m op)
        (ih (runOp ops sops m op).1)

/-- C7: supplying a non-null Krylov object stores exactly that instance
with the user-defined tag and makes the constructor independent of the
Krylov factory, for every secant argument; supplying a non-null secant
object stores exactly that instance with the user-defined tag, emits no
construction event and makes the constructor independent of the secant
factory, for every Krylov argument; no sequence of driver calls ever
changes the stored Krylov object or the preconditioning flag, so after
any such sequence compute still invokes exactly the supplied Krylov
instance; the stored secant is only ever the supplied instance evolved by
its own updateStorage calls, and whenever secant preconditioning is
enabled compute uses exactly the stored secant instance as its
preconditioner. -/
theorem user_supplied_objects_bypass_factories {V S : Type}
    (parlist : ParameterList) (k : Krylov V) (sec : S)
    (krylovArg : Option (Krylov V)) (secantArg : Option S)
    (kf : ParameterList → Krylov V) (sf : ParameterList → S) :
    (mkNewtonKrylovStepUser parlist (some k) secantArg kf
        sf).1.krylov_ = k ∧
    (mkNewtonKrylovStepUser parlist (some k) secantArg kf sf).1.ekv_ =
        EKrylov.KRYLOV_USERDEFINED ∧
    (∀ kf', mkNewtonKrylovStepUser parlist (some k) secantArg kf' sf =
        mkNewtonKrylovStepUser parlist (some k) secantArg kf sf) ∧
    (mkNewtonKrylovStepUser parlist krylovArg (some sec) kf
        sf).1.secant_ = some sec ∧
    (mkNewtonKrylovStepUser parlist krylovArg (some sec) kf sf).1.esec_ =
        ESecant.SECANT_USERDEFINED ∧
    (mkNewtonKrylovStepUser parlist krylovArg (some sec) kf sf).2 = [] ∧
    (∀ sf', mkNewtonKrylovStepUser parlist krylovArg (some sec) kf sf' =
        mkNewtonKrylovStepUser parlist krylovArg (some sec) kf sf) ∧
    (∀ (ops : VectorOps V) (sops : SecantOps V S) (m : Machine V S)
        (l : List (StepOp V)),
      (runOps ops sops m l).1.step.krylov_ = m.step.krylov_ ∧
      (runOps ops sops m l).1.step.useSecantPrecond_ =
        m.step.useSecantPrecond_) ∧
    (∀ (ops : VectorOps V) (sops : SecantOps V S) (stepSt0 : StepState V)
        (x0 : V) (algo0 : AlgorithmState V) (l : List (StepOp V))
        (stepSt : StepState V) (s : V) (obj : Objective V)
        (algo : AlgorithmState V),
      computeKrylovResult ops sops
          (runOps ops sops
            { step := (mkNewtonKrylovStepUser parlist (some k) secantArg
                kf sf).1, stepSt := stepSt0, x := x0, algo := algo0 }
            l).1.step stepSt s obj algo =
        k.run s (HessianNK obj algo.iterateVec) stepSt.gradientVec
          (precondOf ops sops
            (runOps ops sops
              { step := (mkNewtonKrylovStepUser parlist (some k)
                  secantArg kf sf).1, stepSt := stepSt0, x := x0,
                algo := algo0 } l).1.step obj algo)) ∧
    (∀ (ops : VectorOps V) (sops : SecantOps V S) (m : Machine V S)
        (l : List (StepOp V)),
      SecantLineage sops m.step.secant_
        ((runOps ops sops m l).1.step.secant_)) ∧
    (∀ (ops : VectorOps V) (sops : SecantOps V S) (obj : Objective V)
        (algo : AlgorithmState V) (s1 : S) (kr : Krylov V) (ek : EKrylov)
        (es : ESecant) (gp : Option V) (ik fk vb : ℤ),
      precondOf ops sops
          { secant_ := some s1, krylov_ := kr, ekv_ := ek, esec_ := es,
            gp_ := gp, iterKrylov_ := ik, flagKrylov_ := fk,
            verbosity_ := vb, useSecantPrecond_ := true } obj algo =
        sops.asOp s1) := by
  refine ⟨rfl, rfl, fun kf' => rfl, rfl, rfl, rfl, fun sf' => rfl,
    ?_, ?_, ?_, ?_⟩
  · exact fun ops sops m l => runOps_config_preserved ops sops l m
  · intro ops sops stepSt0 x0 algo0 l stepSt s obj algo
    have hk : (runOps ops sops
        { step := (mkNewtonKrylovStepUser parlist (some k) secantArg kf
            sf).1, stepSt := stepSt0, x := x0, algo := algo0 }
        l).1.step.krylov_ = k :=
      (runOps_config_preserved ops sops l _).1
    simp only [computeKrylovResult]
    rw [hk]
  · exact fun ops sops m l => runOps_secant_lineage ops sops l m
  · exact fun ops sops obj algo s1 kr ek es gp ik fk vb => rfl

/-- C8 counterexample: at an algorithm state with iteration count 0 the
print output omits snorm, nfval, ngrad, iterCG and flagCG, so it does not
contain all eight substantive fields. -/
theorem print_missing_fields_at_iter_zero :
    containsAllEight (ROL.print stepOK algo0 false) = false := by
  decide

/-- C8 amended: for every algorithm state with nonzero iteration count,
the print output contains all eight substantive fields. -/
theorem print_contains_all_eight_fields {V S : Type}
    (step : NewtonKrylovStep V S) (algo : AlgorithmState V) (ph : Bool)
    (h : algo.iter ≠ 0) :
    containsAllEight (ROL.print step algo ph) = true := by
  by_cases hv : 0 < step.verbosity_ <;> cases ph <;>
    simp [ROL.print, printHeader, containsAllEight, h, hv]

theorem print_contains_all_eight_fields_witness :
    containsAllEight (ROL.print stepOK algo1 false) = true :=
  print_contains_all_eight_fields stepOK algo1 false (by decide)

end ROL
